import Mathlib

/-!
Verification of the prism-messenger-server core against its specification.

The Rust source is shallowly embedded: UUIDs become `Nat`, the various
in-memory stores become association lists, and external collaborators
(crypto primitives, the prism registry, the push gateway, clock and UUID
generation) are passed in as explicit function parameters, mirroring the
trait objects the services receive in the source.
-/

namespace Prism

abbrev Uuid := Nat

/-- Association-list lookup, mirroring `HashMap::get`. -/
def alookup {β : Type} : List (Uuid × β) → Uuid → Option β
  | [], _ => none
  | (k, v) :: rest, a => if k = a then some v else alookup rest a

/-- Association-list insert-or-replace, mirroring `HashMap::insert`. -/
def aupdate {β : Type} : List (Uuid × β) → Uuid → β → List (Uuid × β)
  | [], a, v => [(a, v)]
  | (k, w) :: rest, a, v =>
      if k = a then (a, v) :: rest else (k, w) :: aupdate rest a v

/-- Association-list removal, mirroring `HashMap::remove`. -/
def aerase {β : Type} : List (Uuid × β) → Uuid → List (Uuid × β)
  | [], _ => []
  | (k, w) :: rest, a =>
      if k = a then aerase rest a else (k, w) :: aerase rest a

theorem alookup_aupdate_self {β : Type} (st : List (Uuid × β)) (a : Uuid) (v : β) :
    alookup (aupdate st a v) a = some v := by
  induction st with
  | nil => simp [aupdate, alookup]
  | cons hd tl ih =>
      obtain ⟨k, w⟩ := hd
      by_cases hk : k = a
      · simp [aupdate, alookup, hk]
      · simp [aupdate, alookup, hk, ih]

theorem alookup_aupdate_ne {β : Type} (st : List (Uuid × β)) (a b : Uuid) (v : β)
    (hab : a ≠ b) : alookup (aupdate st a v) b = alookup st b := by
  induction st with
  | nil => simp [aupdate, alookup, hab]
  | cons hd tl ih =>
      obtain ⟨k, w⟩ := hd
      by_cases hk : k = a
      · subst hk
        simp [aupdate, alookup, hab]
      · simp [aupdate, alookup, hk, ih]

theorem alookup_aerase_self {β : Type} (st : List (Uuid × β)) (a : Uuid) :
    alookup (aerase st a) a = none := by
  induction st with
  | nil => simp [aerase, alookup]
  | cons hd tl ih =>
      obtain ⟨k, w⟩ := hd
      by_cases hk : k = a
      · simp [aerase, hk, ih]
      · simp [aerase, alookup, hk, ih]

theorem aupdate_aupdate_same {β : Type} (st : List (Uuid × β)) (a : Uuid) (v w : β) :
    aupdate (aupdate st a v) a w = aupdate st a w := by
  induction st with
  | nil => simp [aupdate]
  | cons hd tl ih =>
      obtain ⟨k, u⟩ := hd
      by_cases hk : k = a
      · simp [aupdate, hk]
      · simp [aupdate, hk, ih]

/-!
## WebSocket connection center (`src/websocket/center.rs`)

A live connection is the pair of the owning account and the identity of
its outbound sink channel (`mpsc::UnboundedSender`); sinks are told apart
by an abstract identifier.
-/

structure WebSocketConnection where
  account_id : Uuid
  sender : Nat
deriving DecidableEq

/-- The `connections: HashMap<Uuid, WebSocketConnection>` map of the center. -/
abbrev Connections := List (Uuid × WebSocketConnection)

/-- `WebSocketCenter::add_connection`: insert-or-replace the account's entry. -/
def add_connection (st : Connections) (account_id : Uuid) (sender : Nat) : Connections :=
  aupdate st account_id ⟨account_id, sender⟩

/-- `WebSocketCenter::remove_connection`: removes the entry for the account
id unconditionally; the caller's sink identity is never consulted. -/
def remove_connection (st : Connections) (account_id : Uuid) : Connections :=
  aerase st account_id

/-- `WebSocketCenter::has_connection`. -/
def has_connection (st : Connections) (account_id : Uuid) : Bool :=
  (alookup st account_id).isSome

theorem has_connection_add (st : Connections) (a : Uuid) (s : Nat) :
    has_connection (add_connection st a s) a = true := by
  simp [has_connection, add_connection, alookup_aupdate_self]

theorem has_connection_remove (st : Connections) (a : Uuid) :
    has_connection (remove_connection st a) a = false := by
  simp [has_connection, remove_connection, alookup_aerase_self]

/-- C1: the claim asserts that after `add_connection(a, s1)` and
`add_connection(a, s2)`, a `remove_connection(a)` issued by the task
holding the evicted sink `s1` leaves the current entry in place, so that
`has_connection(a)` still holds. The code removes the entry keyed only by
the account id, with no identity check on the caller's sink: evaluated at
account `0` with sinks `1` and `2`, the removal wipes the `s2` entry and
`has_connection` is `false` afterwards. -/
theorem remove_connection_ignores_sink_identity :
    has_connection
      (remove_connection (add_connection (add_connection [] 0 1) 0 2) 0) 0 = false ∧
    alookup (add_connection (add_connection [] 0 1) 0 2) 0 =
      some ⟨0, 2⟩ := by
  constructor
  · decide
  · decide

/-!
## Messaging data model (`src/messages/entities.rs`, `src/messages/error.rs`)

Cryptographic keys and opaque byte strings are represented abstractly:
a `VerifyingKey` becomes a `Nat`, byte vectors become `List Nat`.
-/

structure DoubleRatchetHeader where
  ephemeral_key : Nat
  message_number : Nat
  previous_message_number : Nat
  one_time_prekey_id : Option Nat
deriving DecidableEq

structure DoubleRatchetMessage where
  header : DoubleRatchetHeader
  ciphertext : List Nat
  nonce : List Nat
deriving DecidableEq

structure Message where
  message_id : Uuid
  sender_id : Uuid
  recipient_id : Uuid
  message : DoubleRatchetMessage
  timestamp : Nat
deriving DecidableEq

structure MessageReceipt where
  message_id : Uuid
  timestamp : Nat
deriving DecidableEq

inductive PresenceError where
  | Database (msg : String)
  | AccountNotFound (id : Uuid)
  | SendingFailed (msg : String)
deriving DecidableEq

inductive NotificationError where
  | SendFailure (msg : String)
  | InitializationFailed (msg : String)
deriving DecidableEq

def sendFailureText : String := "Failed to send notification: "

def initFailureText : String := "Failed to initialize notification service: "

/-- The `Display` rendering of `NotificationError` from `thiserror`. -/
def NotificationError.display : NotificationError → String
  | .SendFailure s => sendFailureText ++ s
  | .InitializationFailed s => initFailureText ++ s

inductive MessagingError where
  | UserNotFound (s : String)
  | DatabaseError (s : String)
  | NotificationError (s : String)
  | ParseError (s : String)
deriving DecidableEq

/-- `impl From<NotificationError> for MessagingError`. -/
def MessagingError.ofNotification (e : Prism.NotificationError) : MessagingError :=
  .NotificationError e.display

/-!
## In-memory message queue (`src/database/inmemory.rs`)

`messages: Mutex<HashMap<Uuid, Vec<Message>>>`, keyed by recipient.
-/

abbrev MessageQueue := List (Uuid × List Message)

/-- `InMemoryDatabase::insert_message`: push onto the recipient's vector,
creating it when absent. -/
def insert_message (st : MessageQueue) (m : Message) : MessageQueue :=
  aupdate st m.recipient_id ((alookup st m.recipient_id).getD [] ++ [m])

/-- `InMemoryDatabase::get_messages`: clone of the recipient's vector. -/
def get_messages (st : MessageQueue) (account_id : Uuid) : List Message :=
  (alookup st account_id).getD []

/-- `InMemoryDatabase::mark_delivered`: retain only messages whose id is
not named; returns whether anything was removed, and the new store. -/
def mark_delivered (st : MessageQueue) (account_id : Uuid) (ids : List Uuid) :
    Bool × MessageQueue :=
  match alookup st account_id with
  | none => (false, st)
  | some msgs =>
      let remaining := msgs.filter (fun m => !(ids.contains m.message_id))
      (remaining.length != msgs.length, aupdate st account_id remaining)

theorem get_messages_insert (st : MessageQueue) (m : Message) :
    get_messages (insert_message st m) m.recipient_id =
      get_messages st m.recipient_id ++ [m] := by
  simp [get_messages, insert_message, alookup_aupdate_self]

/-- C8: after `mark_delivered(B, S)`, the pending messages for `B` are
exactly the pre-call ones whose ids are not in `S` (ids absent from the
queue are skipped silently), and repeating the call leaves the whole
store unchanged. -/
theorem mark_delivered_filters_and_idempotent (st : MessageQueue) (B : Uuid)
    (S : List Uuid) :
    get_messages (mark_delivered st B S).2 B =
      (get_messages st B).filter (fun m => !(S.contains m.message_id)) ∧
    (mark_delivered (mark_delivered st B S).2 B S).2 = (mark_delivered st B S).2 := by
  match h : alookup st B with
  | none =>
      constructor
      · simp [mark_delivered, h, get_messages]
      · simp [mark_delivered, h]
  | some msgs =>
      have hfilter :
          (msgs.filter (fun m => !(S.contains m.message_id))).filter
              (fun m => !(S.contains m.message_id)) =
            msgs.filter (fun m => !(S.contains m.message_id)) := by
        rw [List.filter_filter]
        simp
      constructor
      · simp [mark_delivered, h, get_messages, alookup_aupdate_self]
      · simp only [mark_delivered, h, alookup_aupdate_self, hfilter]
        exact aupdate_aupdate_same ..

/-!
## Notification service (`src/notifications/service.rs`)
-/

inductive AccountDatabaseError where
  | NotFound (s : String)
  | OperationFailed
deriving DecidableEq

/-- `SaltedHash` is an opaque encoded string; verification is delegated
to the hasher, which the services receive from outside. -/
abbrev SaltedHash := String

structure Account where
  id : Uuid
  auth_password_hash : SaltedHash
  apns_token : Option (List Nat)
  gcm_token : Option (List Nat)
deriving DecidableEq

def accountNotFoundText : String := "Account not found: "

def dbOperationFailedText : String := "Database operation failed"

def apnsTokenNotFoundText : String := "APNS token not found for account: "

/-- `NotificationService::send_wakeup_notification`: fetch the account,
extract its APNS token, invoke the vendor gateway. -/
def send_wakeup_notification
    (fetch_account : Uuid → Except AccountDatabaseError (Option Account))
    (send_silent_notification : List Nat → Except NotificationError Unit)
    (account_id : Uuid) : Except NotificationError Unit :=
  match fetch_account account_id with
  | .error (.NotFound msg) => .error (.SendFailure (accountNotFoundText ++ msg))
  | .error .OperationFailed => .error (.SendFailure dbOperationFailedText)
  | .ok none => .error (.SendFailure (accountNotFoundText ++ toString account_id))
  | .ok (some account) =>
      match account.apns_token with
      | none => .error (.SendFailure (apnsTokenNotFoundText ++ toString account_id))
      | some token => send_silent_notification token

/-!
## Messaging service (`src/messages/messaging_service.rs`)

`send_message` takes the outcome of the presence lookup, the wake-up
callback, the fresh UUID and wall-clock oracles, and the current queue
state; it returns the call result, the new queue state, and the list of
accounts for which a wake-up notification was invoked.
-/

def send_message
    (is_present : Except PresenceError Bool)
    (wakeup : Uuid → Except NotificationError Unit)
    (fresh_uuid : Uuid) (now : Nat)
    (st : MessageQueue)
    (sender_id recipient_id : Uuid) (body : DoubleRatchetMessage) :
    Except MessagingError MessageReceipt × MessageQueue × List Uuid :=
  let is_recipient_present :=
    match is_present with
    | .ok present => present
    | .error _ => true
  let message : Message :=
    ⟨fresh_uuid, sender_id, recipient_id, body, now⟩
  let st' := insert_message st message
  if is_recipient_present then
    (.ok ⟨fresh_uuid, now⟩, st', [])
  else
    match wakeup recipient_id with
    | .ok () => (.ok ⟨fresh_uuid, now⟩, st', [recipient_id])
    | .error e => (.error (MessagingError.ofNotification e), st', [recipient_id])

/-- C2: with the recipient known offline, `send_message` enqueues the
stamped message and invokes the wake-up exactly once; when the wake-up
errors, the call surfaces `NotificationError` while the inserted message
is still in the recipient's queue. -/
theorem send_message_offline_wakeup_once
    (is_present : Except PresenceError Bool)
    (wakeup : Uuid → Except NotificationError Unit)
    (fresh_uuid : Uuid) (now : Nat) (st : MessageQueue)
    (A B : Uuid) (body : DoubleRatchetMessage)
    (hp : is_present = .ok false) :
    (send_message is_present wakeup fresh_uuid now st A B body).2.2 = [B] ∧
    get_messages (send_message is_present wakeup fresh_uuid now st A B body).2.1 B =
      get_messages st B ++ [⟨fresh_uuid, A, B, body, now⟩] ∧
    (∀ e, wakeup B = .error e →
      (send_message is_present wakeup fresh_uuid now st A B body).1 =
        .error (.NotificationError e.display)) := by
  subst hp
  have hq := get_messages_insert st ⟨fresh_uuid, A, B, body, now⟩
  match hw : wakeup B with
  | .ok () =>
      refine ⟨by simp [send_message, hw], by simpa [send_message, hw] using hq, ?_⟩
      intro e he
      exact absurd he (by simp)
  | .error e₀ =>
      refine ⟨by simp [send_message, hw], by simpa [send_message, hw] using hq, ?_⟩
      intro e he
      injection he with h
      subst h
      simp [send_message, hw, MessagingError.ofNotification]

def wakeupUnused : Uuid → Except NotificationError Unit :=
  fun _ => .error (.SendFailure dbOperationFailedText)

theorem send_message_offline_wakeup_once_witness :
    (send_message (.ok false) wakeupUnused 5 7 [] 1 2
        ⟨⟨9, 0, 0, none⟩, [170, 187], [0]⟩).2.2 = [2] ∧
    get_messages (send_message (.ok false) wakeupUnused 5 7 [] 1 2
        ⟨⟨9, 0, 0, none⟩, [170, 187], [0]⟩).2.1 2 =
      get_messages ([] : MessageQueue) 2 ++ [⟨5, 1, 2, ⟨⟨9, 0, 0, none⟩, [170, 187], [0]⟩, 7⟩] ∧
    (∀ e, wakeupUnused 2 = .error e →
      (send_message (.ok false) wakeupUnused 5 7 [] 1 2
          ⟨⟨9, 0, 0, none⟩, [170, 187], [0]⟩).1 =
        .error (.NotificationError e.display)) :=
  send_message_offline_wakeup_once (.ok false) wakeupUnused 5 7 [] 1 2
    ⟨⟨9, 0, 0, none⟩, [170, 187], [0]⟩ rfl

/-- C3: when the presence lookup errors, the recipient is treated as
present: no wake-up is attempted, the message is still enqueued, and the
call returns a receipt successfully. -/
theorem send_message_presence_error_treated_present
    (is_present : Except PresenceError Bool)
    (wakeup : Uuid → Except NotificationError Unit)
    (fresh_uuid : Uuid) (now : Nat) (st : MessageQueue)
    (A B : Uuid) (body : DoubleRatchetMessage) (e : PresenceError)
    (hp : is_present = .error e) :
    (send_message is_present wakeup fresh_uuid now st A B body).2.2 = [] ∧
    get_messages (send_message is_present wakeup fresh_uuid now st A B body).2.1 B =
      get_messages st B ++ [⟨fresh_uuid, A, B, body, now⟩] ∧
    (send_message is_present wakeup fresh_uuid now st A B body).1 =
      .ok ⟨fresh_uuid, now⟩ := by
  subst hp
  have hq := get_messages_insert st ⟨fresh_uuid, A, B, body, now⟩
  exact ⟨by simp [send_message], by simpa [send_message] using hq, by simp [send_message]⟩

def presenceDbError : PresenceError := .Database dbOperationFailedText

theorem send_message_presence_error_witness :
    (send_message (.error presenceDbError) wakeupUnused 5 7 [] 1 2
        ⟨⟨9, 0, 0, none⟩, [170, 187], [0]⟩).2.2 = [] ∧
    get_messages (send_message (.error presenceDbError) wakeupUnused 5 7 [] 1 2
        ⟨⟨9, 0, 0, none⟩, [170, 187], [0]⟩).2.1 2 =
      get_messages ([] : MessageQueue) 2 ++ [⟨5, 1, 2, ⟨⟨9, 0, 0, none⟩, [170, 187], [0]⟩, 7⟩] ∧
    (send_message (.error presenceDbError) wakeupUnused 5 7 [] 1 2
        ⟨⟨9, 0, 0, none⟩, [170, 187], [0]⟩).1 = .ok ⟨5, 7⟩ :=
  send_message_presence_error_treated_present (.error presenceDbError) wakeupUnused
    5 7 [] 1 2 ⟨⟨9, 0, 0, none⟩, [170, 187], [0]⟩ presenceDbError rfl

/-!
## Message sender loop (`src/messages/sender_service.rs`)

One tick of `MessageSenderService::try_send_pending_messages`, applied to
the batch obtained from `get_all_messages`. The gateway outcome and the
possible failure of `remove_messages` are supplied as oracles; on a
successful removal the queue state changes by the in-memory removal
semantics. The returned triple is (tick result, final queue state, the
messages handed to the gateway in order).
-/

/-- Queue-side effect of a successful `remove_messages` call. -/
def remove_messages (st : MessageQueue) (account_id : Uuid) (ids : List Uuid) :
    MessageQueue :=
  (mark_delivered st account_id ids).2

def try_send_pending_messages
    (send_res : Message → Except MessagingError Unit)
    (remove_res : Uuid → Uuid → Option MessagingError) :
    List Message → MessageQueue →
      Except MessagingError Unit × MessageQueue × List Message
  | [], st => (.ok (), st, [])
  | m :: rest, st =>
      match send_res m with
      | .ok _ =>
          match remove_res m.recipient_id m.message_id with
          | some e => (.error e, st, [m])
          | none =>
              let st' := remove_messages st m.recipient_id [m.message_id]
              let out := try_send_pending_messages send_res remove_res rest st'
              (out.1, out.2.1, m :: out.2.2)
      | .error (.UserNotFound _) =>
          let out := try_send_pending_messages send_res remove_res rest st
          (out.1, out.2.1, m :: out.2.2)
      | .error _ =>
          let out := try_send_pending_messages send_res remove_res rest st
          (out.1, out.2.1, m :: out.2.2)

def sendSucceeds (send_res : Message → Except MessagingError Unit) (m : Message) : Bool :=
  match send_res m with
  | .ok _ => true
  | .error _ => false

/-- A message halts the tick iff its gateway send succeeds but the
subsequent queue removal fails. -/
def haltsAt (send_res : Message → Except MessagingError Unit)
    (remove_res : Uuid → Uuid → Option MessagingError) (m : Message) : Bool :=
  sendSucceeds send_res m && (remove_res m.recipient_id m.message_id).isSome

/-- Index of the first message of the batch that halts the tick. -/
def haltPoint (send_res : Message → Except MessagingError Unit)
    (remove_res : Uuid → Uuid → Option MessagingError) :
    List Message → Option Nat
  | [] => none
  | m :: rest =>
      if haltsAt send_res remove_res m then some 0
      else (haltPoint send_res remove_res rest).map Nat.succ

def removeAll (st : MessageQueue) (ms : List Message) : MessageQueue :=
  ms.foldl (fun s m => remove_messages s m.recipient_id [m.message_id]) st

theorem try_send_cons_error
    (send_res : Message → Except MessagingError Unit)
    (remove_res : Uuid → Uuid → Option MessagingError)
    (m : Message) (rest : List Message) (st : MessageQueue) (e : MessagingError)
    (h : send_res m = .error e) :
    try_send_pending_messages send_res remove_res (m :: rest) st =
      ((try_send_pending_messages send_res remove_res rest st).1,
       (try_send_pending_messages send_res remove_res rest st).2.1,
       m :: (try_send_pending_messages send_res remove_res rest st).2.2) := by
  cases e <;> simp [try_send_pending_messages, h]

theorem try_send_cons_halt
    (send_res : Message → Except MessagingError Unit)
    (remove_res : Uuid → Uuid → Option MessagingError)
    (m : Message) (rest : List Message) (st : MessageQueue) (e : MessagingError)
    (h1 : send_res m = .ok ()) (h2 : remove_res m.recipient_id m.message_id = some e) :
    try_send_pending_messages send_res remove_res (m :: rest) st =
      (.error e, st, [m]) := by
  simp [try_send_pending_messages, h1, h2]

theorem try_send_cons_removed
    (send_res : Message → Except MessagingError Unit)
    (remove_res : Uuid → Uuid → Option MessagingError)
    (m : Message) (rest : List Message) (st : MessageQueue)
    (h1 : send_res m = .ok ()) (h2 : remove_res m.recipient_id m.message_id = none) :
    try_send_pending_messages send_res remove_res (m :: rest) st =
      ((try_send_pending_messages send_res remove_res rest
          (remove_messages st m.recipient_id [m.message_id])).1,
       (try_send_pending_messages send_res remove_res rest
          (remove_messages st m.recipient_id [m.message_id])).2.1,
       m :: (try_send_pending_messages send_res remove_res rest
          (remove_messages st m.recipient_id [m.message_id])).2.2) := by
  simp [try_send_pending_messages, h1, h2]

/-- C4: one tick processes the batch in iteration order. If no message
both sends successfully and then fails its removal, the tick succeeds,
every message was handed to the gateway, and the queue lost exactly the
successfully sent messages. If the first such halting message sits at
index `k`, the tick returns that removal error, only the first `k + 1`
messages were handed to the gateway, and the queue lost exactly the
successfully sent messages strictly before `k` — messages whose send
failed (connection not found or otherwise) are left in the queue while
processing continues past them. -/
theorem try_send_tick_characterization
    (send_res : Message → Except MessagingError Unit)
    (remove_res : Uuid → Uuid → Option MessagingError)
    (batch : List Message) (st : MessageQueue) :
    (haltPoint send_res remove_res batch = none →
      (try_send_pending_messages send_res remove_res batch st).1 = .ok () ∧
      (try_send_pending_messages send_res remove_res batch st).2.2 = batch ∧
      (try_send_pending_messages send_res remove_res batch st).2.1 =
        removeAll st (batch.filter (sendSucceeds send_res))) ∧
    (∀ k, haltPoint send_res remove_res batch = some k →
      (try_send_pending_messages send_res remove_res batch st).2.2 =
        batch.take (k + 1) ∧
      (try_send_pending_messages send_res remove_res batch st).2.1 =
        removeAll st ((batch.take k).filter (sendSucceeds send_res)) ∧
      ∃ m e, batch[k]? = some m ∧
        remove_res m.recipient_id m.message_id = some e ∧
        (try_send_pending_messages send_res remove_res batch st).1 = .error e) := by
  induction batch generalizing st with
  | nil =>
      constructor
      · intro _
        simp [try_send_pending_messages, removeAll]
      · intro k hk
        simp [haltPoint] at hk
  | cons m rest ih =>
      by_cases hh : haltsAt send_res remove_res m = true
      · obtain ⟨hsend, hrem⟩ := by simpa [haltsAt] using hh
        have hok : send_res m = .ok () := by
          revert hsend
          unfold sendSucceeds
          match hs : send_res m with
          | .ok u => cases u; simp
          | .error e => simp
        obtain ⟨e, he⟩ := Option.isSome_iff_exists.mp hrem
        constructor
        · intro hnone
          rw [haltPoint, if_pos hh] at hnone
          cases hnone
        · intro k hk
          rw [haltPoint, if_pos hh] at hk
          cases hk
          rw [try_send_cons_halt send_res remove_res m rest st e hok he]
          refine ⟨by simp, by simp [removeAll], m, e, by simp, he, rfl⟩
      · have hhp : haltPoint send_res remove_res (m :: rest) =
            (haltPoint send_res remove_res rest).map Nat.succ := by
          rw [haltPoint, if_neg hh]
        by_cases hsm : sendSucceeds send_res m = true
        · have hok : send_res m = .ok () := by
            revert hsm
            unfold sendSucceeds
            match hs : send_res m with
            | .ok u => cases u; simp
            | .error e => simp
          have hrem : remove_res m.recipient_id m.message_id = none := by
            cases hr : remove_res m.recipient_id m.message_id with
            | none => rfl
            | some e =>
                exact absurd (by simp [haltsAt, sendSucceeds, hok, hr]) hh
          have hstep := try_send_cons_removed send_res remove_res m rest st hok hrem
          constructor
          · intro hnone
            rw [hhp] at hnone
            have hrest : haltPoint send_res remove_res rest = none := by
              cases hhh : haltPoint send_res remove_res rest with
              | none => rfl
              | some j => rw [hhh] at hnone; cases hnone
            obtain ⟨h1, h2, h3⟩ :=
              (ih (remove_messages st m.recipient_id [m.message_id])).1 hrest
            rw [hstep]
            refine ⟨h1, by rw [h2], ?_⟩
            rw [h3]
            simp [List.filter_cons, hsm, removeAll]
          · intro k hk
            rw [hhp] at hk
            cases hhh : haltPoint send_res remove_res rest with
            | none => rw [hhh] at hk; cases hk
            | some j =>
                rw [hhh] at hk
                injection hk with hk
                subst hk
                obtain ⟨h1, h2, m0, e0, hm0, he0, hres⟩ :=
                  (ih (remove_messages st m.recipient_id [m.message_id])).2 j hhh
                rw [hstep]
                refine ⟨by simp [h1], ?_, m0, e0, by simpa using hm0, he0,
                  by simp [hres]⟩
                rw [h2]
                simp [List.take_succ_cons, List.filter_cons, hsm, removeAll]
        · have ⟨e, hse⟩ : ∃ e, send_res m = .error e := by
            revert hsm
            unfold sendSucceeds
            match hs : send_res m with
            | .ok u => simp
            | .error e => exact fun _ => ⟨e, rfl⟩
          have hstep := try_send_cons_error send_res remove_res m rest st e hse
          have hfm : sendSucceeds send_res m = false := by
            simp [sendSucceeds, hse]
          constructor
          · intro hnone
            rw [hhp] at hnone
            have hrest : haltPoint send_res remove_res rest = none := by
              cases hhh : haltPoint send_res remove_res rest with
              | none => rfl
              | some j => rw [hhh] at hnone; cases hnone
            obtain ⟨h1, h2, h3⟩ := (ih st).1 hrest
            rw [hstep]
            refine ⟨h1, by rw [h2], ?_⟩
            rw [h3]
            simp [List.filter_cons, hfm]
          · intro k hk
            rw [hhp] at hk
            cases hhh : haltPoint send_res remove_res rest with
            | none => rw [hhh] at hk; cases hk
            | some j =>
                rw [hhh] at hk
                injection hk with hk
                subst hk
                obtain ⟨h1, h2, m0, e0, hm0, he0, hres⟩ := (ih st).2 j hhh
                rw [hstep]
                refine ⟨by simp [h1], ?_, m0, e0, by simpa using hm0, he0,
                  by simp [hres]⟩
                rw [h2]
                simp [List.take_succ_cons, List.filter_cons, hfm]

def bodyW : DoubleRatchetMessage := ⟨⟨0, 0, 0, none⟩, [], []⟩

def sendResW : Message → Except MessagingError Unit := fun _ => .ok ()

def removeResW : Uuid → Uuid → Option MessagingError :=
  fun _ i => if i = 2 then some (.DatabaseError dbOperationFailedText) else none

def batchW : List Message := [⟨1, 10, 20, bodyW, 0⟩, ⟨2, 10, 30, bodyW, 0⟩]

theorem try_send_tick_characterization_witness :
    (try_send_pending_messages sendResW removeResW batchW []).2.2 = batchW.take 2 ∧
    (try_send_pending_messages sendResW removeResW batchW []).2.1 =
      removeAll [] ((batchW.take 1).filter (sendSucceeds sendResW)) ∧
    ∃ m e, batchW[1]? = some m ∧
      removeResW m.recipient_id m.message_id = some e ∧
      (try_send_pending_messages sendResW removeResW batchW []).1 = .error e :=
  (try_send_tick_characterization sendResW removeResW batchW []).2 1 (by decide)

/-!
## Registration finalize (`src/registration/service.rs`,
`src/registration/phone_number/service.rs`)

The prism registry client, the databases, the password hasher and the
phone-number validator are external collaborators and enter as
parameters. Error conversions into `RegistrationError` go through the
collaborators' `Display` strings, so the oracles yield those strings
directly. The outcome records, besides the call result, whether a
transaction was handed to the registry and which local rows the call
asked the stores to write.
-/

structure Profile where
  id : Uuid
  account_id : Uuid
  username : String
  display_name : Option String
  profile_picture_url : Option String
  updated_at : Nat
deriving DecidableEq

inductive RegistrationError where
  | ProcessingFailed (msg : String)
  | MissingPushToken
  | InvalidPhoneNumber
  | PhoneSessionNotFound
  | OtpVerificationFailed
  | TwilioError (msg : String)
deriving DecidableEq

structure RegistrationOutcome where
  result : Except RegistrationError Account
  registry_posted : Bool
  accounts_written : List Account
  profiles_written : List Profile

/-- `RegistrationService::finalize_registration`: reject when both push
tokens are absent, otherwise build and post the registry transaction for
`username`, then create the local account and profile rows. -/
def finalize_registration
    (build_challenge : String → Except String Unit)
    (post_transaction : String → Except String Unit)
    (upsert_account_res : Option String)
    (upsert_profile_res : Option String)
    (fresh_account_id : Uuid) (fresh_profile_id : Uuid) (now : Nat)
    (hash_password : String → SaltedHash)
    (username auth_password : String)
    (apns_token gcm_token : Option (List Nat)) : RegistrationOutcome :=
  if apns_token.isNone && gcm_token.isNone then
    ⟨.error .MissingPushToken, false, [], []⟩
  else
    match build_challenge username with
    | .error e => ⟨.error (.ProcessingFailed e), false, [], []⟩
    | .ok () =>
        match post_transaction username with
        | .error e => ⟨.error (.ProcessingFailed e), true, [], []⟩
        | .ok () =>
            let account : Account :=
              ⟨fresh_account_id, hash_password auth_password, apns_token, gcm_token⟩
            match upsert_account_res with
            | some e => ⟨.error (.ProcessingFailed e), true, [account], []⟩
            | none =>
                let profile : Profile :=
                  ⟨fresh_profile_id, fresh_account_id, username, none, none, now⟩
                match upsert_profile_res with
                | some e => ⟨.error (.ProcessingFailed e), true, [account], [profile]⟩
                | none => ⟨.ok account, true, [account], [profile]⟩

/-- `PhoneRegistrationService::finalize_phone_registration`: the same
flow keyed by the hashed phone identifier; the push-token check comes
before phone validation, hashing and any registry traffic. -/
def finalize_phone_registration
    (validate_phone : String → Except RegistrationError String)
    (prism_identifier : String → String)
    (build_challenge : String → Except String Unit)
    (post_transaction : String → Except String Unit)
    (upsert_account_res : Option String)
    (upsert_profile_res : Option String)
    (fresh_account_id : Uuid) (fresh_profile_id : Uuid) (now : Nat)
    (hash_password : String → SaltedHash)
    (phone_number auth_password : String)
    (apns_token gcm_token : Option (List Nat)) : RegistrationOutcome :=
  if apns_token.isNone && gcm_token.isNone then
    ⟨.error .MissingPushToken, false, [], []⟩
  else
    match validate_phone phone_number with
    | .error e => ⟨.error e, false, [], []⟩
    | .ok normalized_phone =>
        let identifier := prism_identifier normalized_phone
        match build_challenge identifier with
        | .error e => ⟨.error (.ProcessingFailed e), false, [], []⟩
        | .ok () =>
            match post_transaction identifier with
            | .error e => ⟨.error (.ProcessingFailed e), true, [], []⟩
            | .ok () =>
                let account : Account :=
                  ⟨fresh_account_id, hash_password auth_password, apns_token, gcm_token⟩
                match upsert_account_res with
                | some e => ⟨.error (.ProcessingFailed e), true, [account], []⟩
                | none =>
                    let profile : Profile :=
                      ⟨fresh_profile_id, fresh_account_id, normalized_phone,
                        none, none, now⟩
                    match upsert_profile_res with
                    | some e =>
                        ⟨.error (.ProcessingFailed e), true, [account], [profile]⟩
                    | none => ⟨.ok account, true, [account], [profile]⟩

/-- C5: with both push tokens absent, both finalize paths fail with
`MissingPushToken` before any registry transaction is posted, and no
local account or profile row is written. -/
theorem finalize_without_tokens_fails_early
    (build_challenge post_transaction : String → Except String Unit)
    (upsert_account_res upsert_profile_res : Option String)
    (validate_phone : String → Except RegistrationError String)
    (prism_identifier : String → String)
    (fresh_account_id fresh_profile_id : Uuid) (now : Nat)
    (hash_password : String → SaltedHash)
    (username phone_number auth_password : String)
    (apns_token gcm_token : Option (List Nat))
    (ha : apns_token = none) (hg : gcm_token = none) :
    finalize_registration build_challenge post_transaction upsert_account_res
        upsert_profile_res fresh_account_id fresh_profile_id now hash_password
        username auth_password apns_token gcm_token =
      ⟨.error .MissingPushToken, false, [], []⟩ ∧
    finalize_phone_registration validate_phone prism_identifier build_challenge
        post_transaction upsert_account_res upsert_profile_res fresh_account_id
        fresh_profile_id now hash_password phone_number auth_password
        apns_token gcm_token =
      ⟨.error .MissingPushToken, false, [], []⟩ := by
  subst ha hg
  exact ⟨by simp [finalize_registration], by simp [finalize_phone_registration]⟩

def idString : String → Except String Unit := fun _ => .ok ()

def validPhoneW : String → Except RegistrationError String := fun s => .ok s

theorem finalize_without_tokens_fails_early_witness :
    finalize_registration idString idString none none 3 4 5 id
        dbOperationFailedText dbOperationFailedText none none =
      ⟨.error .MissingPushToken, false, [], []⟩ ∧
    finalize_phone_registration validPhoneW id idString idString none none 3 4 5 id
        dbOperationFailedText dbOperationFailedText none none =
      ⟨.error .MissingPushToken, false, [], []⟩ :=
  finalize_without_tokens_fails_early idString idString none none validPhoneW id
    3 4 5 id dbOperationFailedText dbOperationFailedText dbOperationFailedText
    none none rfl rfl

/-!
## Key service (`src/keys/service.rs`, `src/keys/entities.rs`)

Keys and signatures are opaque values (`Nat`); their DER encodings and
the signature check are the `prism_client` primitives, passed in as
`spkiDer`, `sigDer` and `verifySig`.
-/

structure Prekey where
  key_idx : Nat
  key : Nat
deriving DecidableEq

structure KeyBundle where
  identity_key : Nat
  signed_prekey : Nat
  signed_prekey_signature : Nat
  prekeys : List Prekey
deriving DecidableEq

inductive KeyError where
  | ValidationError (s : String)
  | NotFound (s : String)
  | DuplicatePrekey (idx : Nat)
  | DatabaseError (s : String)
  | PrismClientError (s : String)
  | UnspecifiedError (s : String)
deriving DecidableEq

def encodingFailedText : String := "SPKI DER encoding failed"

def signatureInvalidText : String := "Invalid signature"

def duplicatePrekeyIdText : String := "Duplicate prekey ID"

/-- The duplicate-id scan of `KeyBundle::verify`: some prekey's `key_idx`
occurs more than once in the bundle. -/
def hasDuplicatePrekeyIdx (prekeys : List Prekey) : Bool :=
  prekeys.any (fun p =>
    (prekeys.filter (fun k => k.key_idx == p.key_idx)).length > 1)

theorem count_map_key_idx (l : List Prekey) (a : Nat) :
    (l.map Prekey.key_idx).count a =
      (l.filter (fun k => k.key_idx == a)).length := by
  rw [List.count, List.countP_map, List.countP_eq_length_filter]
  rfl

theorem contains_iff_mem_nat (l : List Nat) (a : Nat) :
    l.contains a = true ↔ a ∈ l := by
  simp

theorem hasDuplicatePrekeyIdx_eq_false_iff (l : List Prekey) :
    hasDuplicatePrekeyIdx l = false ↔ (l.map Prekey.key_idx).Nodup := by
  rw [List.nodup_iff_count_le_one]
  unfold hasDuplicatePrekeyIdx
  rw [List.any_eq_false]
  constructor
  · intro h a
    by_cases ha : a ∈ l.map Prekey.key_idx
    · obtain ⟨p, hp, rfl⟩ := List.mem_map.mp ha
      have hlen := h p hp
      simp only [decide_eq_true_eq, not_lt] at hlen
      rw [count_map_key_idx]
      omega
    · rw [List.count_eq_zero.mpr ha]
      omega
  · intro h p hp
    have hc := h p.key_idx
    rw [count_map_key_idx] at hc
    simp only [decide_eq_true_eq, not_lt]
    omega

/-- `KeyBundle::verify`: the signature of the signed prekey's SPKI-DER
encoding must check under the identity key, and the bundle must carry no
duplicate prekey ids. -/
def KeyBundle.verify (spkiDer : Nat → Option (List Nat))
    (verifySig : Nat → List Nat → Nat → Bool) (b : KeyBundle) :
    Except String Unit :=
  match spkiDer b.signed_prekey with
  | none => .error encodingFailedText
  | some msg =>
      if verifySig b.identity_key msg b.signed_prekey_signature then
        if hasDuplicatePrekeyIdx b.prekeys then .error duplicatePrekeyIdText
        else .ok ()
      else .error signatureInvalidText

theorem verify_ok_iff (spkiDer : Nat → Option (List Nat))
    (verifySig : Nat → List Nat → Nat → Bool) (b : KeyBundle) :
    KeyBundle.verify spkiDer verifySig b = .ok () ↔
      (∃ m, spkiDer b.signed_prekey = some m ∧
        verifySig b.identity_key m b.signed_prekey_signature = true) ∧
      (b.prekeys.map Prekey.key_idx).Nodup := by
  unfold KeyBundle.verify
  cases hm : spkiDer b.signed_prekey with
  | none => simp [hm]
  | some m =>
      by_cases hv : verifySig b.identity_key m b.signed_prekey_signature = true
      · cases hd : hasDuplicatePrekeyIdx b.prekeys with
        | true =>
            have hnd : ¬ (b.prekeys.map Prekey.key_idx).Nodup := by
              intro hn
              have hfalse := (hasDuplicatePrekeyIdx_eq_false_iff b.prekeys).mpr hn
              rw [hfalse] at hd
              exact Bool.noConfusion hd
            simp [hv, hd, hnd]
        | false =>
            have hnodup := (hasDuplicatePrekeyIdx_eq_false_iff b.prekeys).mp hd
            simp [hv, hd, hnodup]
      · simp only [Bool.not_eq_true] at hv
        simp [hv]

/-!
### In-memory key database (`src/database/inmemory.rs`)
-/

abbrev KeyBundles := List (Uuid × KeyBundle)

/-- `InMemoryDatabase::add_prekeys`: extend the stored bundle's prekey
vector, with no duplicate-id check of its own. -/
def inmem_add_prekeys (st : KeyBundles) (account_id : Uuid)
    (prekeys : List Prekey) : Except KeyError KeyBundles :=
  match alookup st account_id with
  | some bundle =>
      .ok (aupdate st account_id { bundle with prekeys := bundle.prekeys ++ prekeys })
  | none => .error (.NotFound (toString account_id))

/-- `KeyService::add_prekeys`: require a stored bundle, reject the first
incoming `key_idx` that already exists for the account, then delegate to
the database. -/
def add_prekeys (st : KeyBundles) (account_id : Uuid) (prekeys : List Prekey) :
    Except KeyError KeyBundles :=
  match alookup st account_id with
  | none => .error (.NotFound (toString account_id))
  | some key_bundle =>
      let existing_ids := key_bundle.prekeys.map Prekey.key_idx
      match (prekeys.map Prekey.key_idx).find?
          (fun key_idx => existing_ids.contains key_idx) with
      | some duplicate_key_idx => .error (.DuplicatePrekey duplicate_key_idx)
      | none => inmem_add_prekeys st account_id prekeys

/-- C6: `add_prekeys` fails with `NotFound` when no bundle is stored;
fails with `DuplicatePrekey(p.key_idx)` for a colliding `p ∈ P` — in
which case it is the service-level precheck that fails, so nothing is
inserted; and otherwise appends all of `P` to the stored bundle, leaving
every other account untouched. -/
theorem add_prekeys_spec (st : KeyBundles) (a : Uuid) (P : List Prekey) :
    (alookup st a = none → add_prekeys st a P = .error (.NotFound (toString a))) ∧
    (∀ b, alookup st a = some b →
      (∃ p ∈ P, p.key_idx ∈ b.prekeys.map Prekey.key_idx) →
      ∃ p ∈ P, p.key_idx ∈ b.prekeys.map Prekey.key_idx ∧
        add_prekeys st a P = .error (.DuplicatePrekey p.key_idx)) ∧
    (∀ b, alookup st a = some b →
      (∀ p ∈ P, p.key_idx ∉ b.prekeys.map Prekey.key_idx) →
      ∃ st', add_prekeys st a P = .ok st' ∧
        alookup st' a = some { b with prekeys := b.prekeys ++ P } ∧
        ∀ c, c ≠ a → alookup st' c = alookup st c) := by
  refine ⟨?_, ?_, ?_⟩
  · intro h
    simp only [add_prekeys, h]
  · intro b hb hex
    cases hf : (P.map Prekey.key_idx).find?
        (fun key_idx => (b.prekeys.map Prekey.key_idx).contains key_idx) with
    | none =>
        exfalso
        obtain ⟨p, hp, hpidx⟩ := hex
        have hno := List.find?_eq_none.mp hf p.key_idx (List.mem_map_of_mem _ hp)
        exact hno ((contains_iff_mem_nat _ _).mpr hpidx)
    | some idx =>
        have hmem : idx ∈ P.map Prekey.key_idx := List.mem_of_find?_eq_some hf
        obtain ⟨p, hp, rfl⟩ := List.mem_map.mp hmem
        have hpred := List.find?_some hf
        have hpidx : p.key_idx ∈ b.prekeys.map Prekey.key_idx :=
          (contains_iff_mem_nat _ _).mp hpred
        exact ⟨p, hp, hpidx, by simp only [add_prekeys, hb, hf]⟩
  · intro b hb hdisj
    have hf : (P.map Prekey.key_idx).find?
        (fun key_idx => (b.prekeys.map Prekey.key_idx).contains key_idx) = none := by
      rw [List.find?_eq_none]
      intro idx hidx
      obtain ⟨p, hp, rfl⟩ := List.mem_map.mp hidx
      intro hc
      exact hdisj p hp ((contains_iff_mem_nat _ _).mp hc)
    refine ⟨aupdate st a { b with prekeys := b.prekeys ++ P }, ?_, ?_, ?_⟩
    · simp only [add_prekeys, hb, hf, inmem_add_prekeys]
    · exact alookup_aupdate_self ..
    · intro c hc
      exact alookup_aupdate_ne st a c _ (fun hh => hc (hh ▸ rfl))

def bundleW : KeyBundle := ⟨100, 101, 102, [⟨1, 5⟩]⟩

def storeW : KeyBundles := [(1, bundleW)]

theorem add_prekeys_spec_witness :
    add_prekeys [] 1 [] = .error (.NotFound (toString 1)) ∧
    (∃ p ∈ [(⟨1, 6⟩ : Prekey)], p.key_idx ∈ bundleW.prekeys.map Prekey.key_idx ∧
      add_prekeys storeW 1 [⟨1, 6⟩] = .error (.DuplicatePrekey p.key_idx)) ∧
    (∃ st', add_prekeys storeW 1 [⟨2, 6⟩] = .ok st' ∧
      alookup st' 1 = some { bundleW with prekeys := bundleW.prekeys ++ [⟨2, 6⟩] } ∧
      ∀ c, c ≠ 1 → alookup st' c = alookup storeW c) :=
  ⟨(add_prekeys_spec [] 1 []).1 rfl,
   (add_prekeys_spec storeW 1 [⟨1, 6⟩]).2.1 bundleW rfl
     ⟨⟨1, 6⟩, by decide, by decide⟩,
   (add_prekeys_spec storeW 1 [⟨2, 6⟩]).2.2 bundleW rfl (by decide)⟩

/-- C10: the duplicate check of `add_prekeys` compares the incoming ids
only against the stored ones: a batch disjoint from the stored ids is
accepted even when it repeats a `key_idx` internally, and the stored
prekey list afterwards contains that duplicated `key_idx`. -/
theorem add_prekeys_no_intra_batch_check (st : KeyBundles) (a : Uuid)
    (b : KeyBundle) (P : List Prekey)
    (hb : alookup st a = some b)
    (hdisj : ∀ p ∈ P, p.key_idx ∉ b.prekeys.map Prekey.key_idx)
    (hdup : ¬ (P.map Prekey.key_idx).Nodup) :
    ∃ st', add_prekeys st a P = .ok st' ∧
      ∃ b', alookup st' a = some b' ∧
        b'.prekeys = b.prekeys ++ P ∧
        ¬ (b'.prekeys.map Prekey.key_idx).Nodup := by
  obtain ⟨st', hok, hlook, _⟩ := (add_prekeys_spec st a P).2.2 b hb hdisj
  refine ⟨st', hok, { b with prekeys := b.prekeys ++ P }, hlook, rfl, ?_⟩
  intro hn
  rw [List.map_append] at hn
  exact hdup hn.of_append_right

theorem add_prekeys_no_intra_batch_check_witness :
    ∃ st', add_prekeys storeW 1 [⟨2, 6⟩, ⟨2, 7⟩] = .ok st' ∧
      ∃ b', alookup st' 1 = some b' ∧
        b'.prekeys = bundleW.prekeys ++ [⟨2, 6⟩, ⟨2, 7⟩] ∧
        ¬ (b'.prekeys.map Prekey.key_idx).Nodup :=
  add_prekeys_no_intra_batch_check storeW 1 bundleW [⟨2, 6⟩, ⟨2, 7⟩]
    rfl (by decide) (by decide)

/-!
### Sqlite key store (`src/database/sqlite.rs`)

The `key_bundles` and `prekeys` tables; `prekeys` has primary key
`(account_id, key_idx)` and cascades on bundle deletion.
-/

structure KeyBundleRow where
  identity_key : List Nat
  signed_prekey : List Nat
  signed_prekey_signature : List Nat
deriving DecidableEq

structure PrekeyRow where
  account_id : Uuid
  key_idx : Nat
  key : List Nat
deriving DecidableEq

structure KeyStore where
  key_bundles : List (Uuid × KeyBundleRow)
  prekeys : List PrekeyRow
deriving DecidableEq

def uniqueViolationText : String :=
  "UNIQUE constraint failed: prekeys.account_id, prekeys.key_idx"

theorem alookup_aerase_ne {β : Type} (st : List (Uuid × β)) (a c : Uuid)
    (h : c ≠ a) : alookup (aerase st a) c = alookup st c := by
  induction st with
  | nil => simp [aerase]
  | cons hd tl ih =>
      obtain ⟨k, w⟩ := hd
      by_cases hk : k = a
      · subst hk
        simp [aerase, alookup, ih, Ne.symm h]
      · simp [aerase, alookup, hk, ih]

theorem alookup_append {β : Type} (l1 l2 : List (Uuid × β)) (c : Uuid) :
    alookup (l1 ++ l2) c =
      match alookup l1 c with
      | some v => some v
      | none => alookup l2 c := by
  induction l1 with
  | nil => simp [alookup]
  | cons hd tl ih =>
      obtain ⟨k, w⟩ := hd
      by_cases hk : k = c
      · simp [alookup, hk]
      · simp [alookup, hk, ih]

/-- The prekey-insertion loop of `SqliteDatabase::insert_keybundle`:
plain `INSERT` statements inside the transaction, so a primary-key
conflict aborts the whole transaction. -/
def insert_prekey_rows (spkiDer : Nat → Option (List Nat)) (account_id : Uuid) :
    List Prekey → List PrekeyRow → Except KeyError (List PrekeyRow)
  | [], tab => .ok tab
  | p :: rest, tab =>
      match spkiDer p.key with
      | none => .error (.UnspecifiedError encodingFailedText)
      | some key_bytes =>
          if tab.any (fun r => r.account_id == account_id && r.key_idx == p.key_idx)
          then .error (.DatabaseError uniqueViolationText)
          else insert_prekey_rows spkiDer account_id rest
              (tab ++ [⟨account_id, p.key_idx, key_bytes⟩])

/-- `SqliteDatabase::insert_keybundle`: within one transaction, delete
the existing bundle (cascading to its prekeys), insert the new bundle
row, and insert every prekey; any failure leaves the store unchanged. -/
def sqlite_insert_keybundle (spkiDer sigDer : Nat → Option (List Nat))
    (st : KeyStore) (account_id : Uuid) (kb : KeyBundle) :
    Except KeyError KeyStore :=
  let bundles := aerase st.key_bundles account_id
  let cascaded := st.prekeys.filter (fun r => r.account_id != account_id)
  match spkiDer kb.identity_key, spkiDer kb.signed_prekey,
      sigDer kb.signed_prekey_signature with
  | some ik, some spk, some sg =>
      match insert_prekey_rows spkiDer account_id kb.prekeys cascaded with
      | .error e => .error e
      | .ok tab => .ok ⟨bundles ++ [(account_id, ⟨ik, spk, sg⟩)], tab⟩
  | _, _, _ => .error (.UnspecifiedError encodingFailedText)

/-- `KeyService::upload_key_bundle`: verify, then replace the stored
bundle through the store's transactional delete-then-insert. -/
def upload_key_bundle (spkiDer sigDer : Nat → Option (List Nat))
    (verifySig : Nat → List Nat → Nat → Bool)
    (st : KeyStore) (account_id : Uuid) (bundle : KeyBundle) :
    Except KeyError KeyStore :=
  match KeyBundle.verify spkiDer verifySig bundle with
  | .error e => .error (.ValidationError e)
  | .ok () => sqlite_insert_keybundle spkiDer sigDer st account_id bundle

theorem insert_prekey_rows_ok (spkiDer : Nat → Option (List Nat)) (a : Uuid)
    (ps : List Prekey) :
    ∀ (tab tab' : List PrekeyRow),
      insert_prekey_rows spkiDer a ps tab = .ok tab' →
      ∃ rows, tab' = tab ++ rows ∧
        (∀ r ∈ rows, r.account_id = a) ∧
        rows.map PrekeyRow.key_idx = ps.map Prekey.key_idx := by
  induction ps with
  | nil =>
      intro tab tab' h
      refine ⟨[], ?_, by simp, by simp⟩
      injection h with h
      simp [h.symm]
  | cons p rest ih =>
      intro tab tab' h
      cases hk : spkiDer p.key with
      | none =>
          simp only [insert_prekey_rows, hk] at h
          exact Except.noConfusion h
      | some key_bytes =>
          simp only [insert_prekey_rows, hk] at h
          by_cases hc :
              tab.any (fun r => r.account_id == a && r.key_idx == p.key_idx) = true
          · rw [if_pos hc] at h
            exact Except.noConfusion h
          · rw [if_neg hc] at h
            obtain ⟨rows, hrows, hacc, hmap⟩ := ih (tab ++ [⟨a, p.key_idx, key_bytes⟩]) tab' h
            refine ⟨⟨a, p.key_idx, key_bytes⟩ :: rows, by simp [hrows], ?_, by simp [hmap]⟩
            intro r hr
            rcases List.mem_cons.mp hr with hr | hr
            · simp [hr]
            · exact hacc r hr

/-- C7: `upload_key_bundle` rejects a bundle whose verification fails
with a `ValidationError`; any accepted upload had a valid signature over
the signed prekey's encoding and pairwise-distinct prekey ids, and it
atomically replaced the account's bundle row and prekey rows while
leaving every other account's rows untouched. -/
theorem upload_key_bundle_spec (spkiDer sigDer : Nat → Option (List Nat))
    (verifySig : Nat → List Nat → Nat → Bool)
    (st : KeyStore) (a : Uuid) (bundle : KeyBundle) :
    (∀ msg, KeyBundle.verify spkiDer verifySig bundle = .error msg →
      upload_key_bundle spkiDer sigDer verifySig st a bundle =
        .error (.ValidationError msg)) ∧
    (∀ st', upload_key_bundle spkiDer sigDer verifySig st a bundle = .ok st' →
      ((∃ m, spkiDer bundle.signed_prekey = some m ∧
          verifySig bundle.identity_key m bundle.signed_prekey_signature = true) ∧
        (bundle.prekeys.map Prekey.key_idx).Nodup) ∧
      (∃ ik spk sg, spkiDer bundle.identity_key = some ik ∧
        spkiDer bundle.signed_prekey = some spk ∧
        sigDer bundle.signed_prekey_signature = some sg ∧
        alookup st'.key_bundles a = some ⟨ik, spk, sg⟩) ∧
      (∀ c, c ≠ a → alookup st'.key_bundles c = alookup st.key_bundles c) ∧
      (st'.prekeys.filter (fun r => r.account_id == a)).map PrekeyRow.key_idx =
        bundle.prekeys.map Prekey.key_idx ∧
      st'.prekeys.filter (fun r => r.account_id != a) =
        st.prekeys.filter (fun r => r.account_id != a)) := by
  constructor
  · intro msg hmsg
    simp only [upload_key_bundle, hmsg]
  · intro st' hok
    cases hv : KeyBundle.verify spkiDer verifySig bundle with
    | error e =>
        rw [upload_key_bundle, hv] at hok
        cases hok
    | ok u =>
        cases u
        refine ⟨(verify_ok_iff spkiDer verifySig bundle).mp hv, ?_⟩
        rw [upload_key_bundle, hv] at hok
        rw [sqlite_insert_keybundle] at hok
        cases hik : spkiDer bundle.identity_key with
        | none => rw [hik] at hok; cases hok
        | some ik =>
        cases hspk : spkiDer bundle.signed_prekey with
        | none => rw [hik, hspk] at hok; cases hok
        | some spk =>
        cases hsg : sigDer bundle.signed_prekey_signature with
        | none => rw [hik, hspk, hsg] at hok; cases hok
        | some sg =>
        rw [hik, hspk, hsg] at hok
        cases hins : insert_prekey_rows spkiDer a bundle.prekeys
            (st.prekeys.filter (fun r => r.account_id != a)) with
        | error e => rw [hins] at hok; cases hok
        | ok tab =>
        rw [hins] at hok
        injection hok with hok
        subst hok
        obtain ⟨rows, hrows, hacc, hmap⟩ :=
          insert_prekey_rows_ok spkiDer a bundle.prekeys _ tab hins
        have hrows_a : rows.filter (fun r => r.account_id == a) = rows :=
          List.filter_eq_self.mpr (fun r hr => by simp [hacc r hr])
        have hrows_na : rows.filter (fun r => r.account_id != a) = [] := by
          rw [List.filter_eq_nil_iff]
          intro r hr
          simp [hacc r hr]
        have hcasc_a :
            ((st.prekeys.filter (fun r => r.account_id != a)).filter
              (fun r => r.account_id == a)) = [] := by
          rw [List.filter_eq_nil_iff]
          intro r hr
          have hne := (List.mem_filter.mp hr).2
          simp only [bne_iff_ne, ne_eq] at hne
          simp [hne]
        have hcasc_na :
            ((st.prekeys.filter (fun r => r.account_id != a)).filter
              (fun r => r.account_id != a)) =
              st.prekeys.filter (fun r => r.account_id != a) :=
          List.filter_eq_self.mpr (fun r hr => (List.mem_filter.mp hr).2)
        refine ⟨⟨ik, spk, sg, rfl, rfl, rfl, ?_⟩, ?_, ?_, ?_⟩
        · rw [alookup_append, alookup_aerase_self]
          simp [alookup]
        · intro c hc
          rw [alookup_append, alookup_aerase_ne st.key_bundles a c hc]
          cases hl : alookup st.key_bundles c with
          | some v => rfl
          | none =>
              have hne : a ≠ c := Ne.symm hc
              simp [alookup, hne]
        · rw [hrows, List.filter_append, hcasc_a, hrows_a]
          simpa using hmap
        · rw [hrows, List.filter_append, hcasc_na, hrows_na]
          simp

def spkiDerW : Nat → Option (List Nat) := fun k => some [k]

def verifySigF : Nat → List Nat → Nat → Bool := fun _ _ _ => false

def verifySigT : Nat → List Nat → Nat → Bool := fun _ _ _ => true

def bundleV : KeyBundle := ⟨100, 101, 102, []⟩

def bundleU : KeyBundle := ⟨100, 101, 102, [⟨1, 5⟩, ⟨2, 6⟩]⟩

def storeU : KeyStore :=
  ⟨[(1, ⟨[100], [101], [102]⟩)], [⟨1, 1, [5]⟩, ⟨1, 2, [6]⟩]⟩

theorem upload_key_bundle_spec_witness :
    upload_key_bundle spkiDerW spkiDerW verifySigF ⟨[], []⟩ 1 bundleV =
      .error (.ValidationError signatureInvalidText) ∧
    (((∃ m, spkiDerW bundleU.signed_prekey = some m ∧
        verifySigT bundleU.identity_key m bundleU.signed_prekey_signature = true) ∧
      (bundleU.prekeys.map Prekey.key_idx).Nodup) ∧
    (∃ ik spk sg, spkiDerW bundleU.identity_key = some ik ∧
      spkiDerW bundleU.signed_prekey = some spk ∧
      spkiDerW bundleU.signed_prekey_signature = some sg ∧
      alookup storeU.key_bundles 1 = some ⟨ik, spk, sg⟩) ∧
    (∀ c, c ≠ 1 → alookup storeU.key_bundles c =
      alookup (⟨[], []⟩ : KeyStore).key_bundles c) ∧
    (storeU.prekeys.filter (fun r => r.account_id == 1)).map PrekeyRow.key_idx =
      bundleU.prekeys.map Prekey.key_idx ∧
    storeU.prekeys.filter (fun r => r.account_id != 1) =
      (⟨[], []⟩ : KeyStore).prekeys.filter (fun r => r.account_id != 1)) :=
  ⟨(upload_key_bundle_spec spkiDerW spkiDerW verifySigF ⟨[], []⟩ 1 bundleV).1
      signatureInvalidText rfl,
   (upload_key_bundle_spec spkiDerW spkiDerW verifySigT ⟨[], []⟩ 1 bundleU).2
      storeU rfl⟩

/-!
## Auth middleware (`src/account/auth/middleware.rs`,
`src/account/auth/service.rs`, `src/account/auth/header.rs`)

Base64 and UTF-8 decoding are library primitives, passed in as oracles;
the rest of the header parser — the `Basic ` tag check, repeated prefix
stripping, and the first-colon split — is embedded directly.
-/

inductive AuthHeaderError where
  | InvalidFormat
  | Base64Error
  | Utf8Error
  | MissingCredentials
deriving DecidableEq

structure AuthHeader where
  username : String
  password : String
deriving DecidableEq

inductive SaltedHashError where
  | InvalidPassword
  | HashParseError (s : String)
deriving DecidableEq

inductive AuthError where
  | InvalidCredentials
  | ProcessingFailed
  | DatabaseError (e : AccountDatabaseError)
deriving DecidableEq

/-- `impl From<SaltedHashError> for AuthError`. -/
def AuthError.ofSaltedHash : SaltedHashError → AuthError
  | .InvalidPassword => .InvalidCredentials
  | .HashParseError _ => .ProcessingFailed

def basicTag : String := "Basic "

/-- Rust's `trim_start_matches`: repeatedly remove a leading `"Basic "`;
the input's length bounds the number of removals. -/
def stripBasicTag : Nat → List Char → List Char
  | 0, s => s
  | Nat.succ n, s =>
      if basicTag.toList.isPrefixOf s then
        stripBasicTag n (s.drop basicTag.toList.length)
      else s

/-- `splitn(2, ':')`: split at the first colon; `none` when there is no
colon, in which case the Rust parts vector has length 1. -/
def splitOnceColon : List Char → Option (List Char × List Char)
  | [] => none
  | ch :: rest =>
      if ch = ':' then some ([], rest)
      else
        match splitOnceColon rest with
        | none => none
        | some (l, r) => some (ch :: l, r)

/-- `AuthHeader::parse`; `starts_with` is the character-level prefix
test. -/
def AuthHeader.parse (b64decode : String → Option (List Nat))
    (utf8decode : List Nat → Option String) (auth_header : String) :
    Except AuthHeaderError AuthHeader :=
  if !(basicTag.toList.isPrefixOf auth_header.toList) then .error .InvalidFormat
  else
    let credentials :=
      String.mk (stripBasicTag auth_header.toList.length auth_header.toList)
    match b64decode credentials with
    | none => .error .Base64Error
    | some decoded_bytes =>
        match utf8decode decoded_bytes with
        | none => .error .Utf8Error
        | some decoded_str =>
            match splitOnceColon decoded_str.toList with
            | none => .error .MissingCredentials
            | some (u, p) => .ok ⟨String.mk u, String.mk p⟩

/-- `AuthService::authenticate`: parse the user part as a UUID, fetch
the account, verify the password against the stored hash. -/
def authenticate (parse_uuid : String → Option Uuid)
    (fetch_account : Uuid → Except AccountDatabaseError (Option Account))
    (verify_password : SaltedHash → String → Except SaltedHashError Unit)
    (id password : String) : Except AuthError Account :=
  match parse_uuid id with
  | none => .error .InvalidCredentials
  | some account_id =>
      match fetch_account account_id with
      | .error e => .error (.DatabaseError e)
      | .ok none => .error .InvalidCredentials
      | .ok (some account) =>
          match verify_password account.auth_password_hash password with
          | .error e => .error (AuthError.ofSaltedHash e)
          | .ok () => .ok account

def UNAUTHORIZED : Nat := 401

/-- `require_auth`: header extraction, parse, authenticate; every
failure is collapsed to the bare `401` status code. -/
def require_auth (parse_uuid : String → Option Uuid)
    (fetch_account : Uuid → Except AccountDatabaseError (Option Account))
    (verify_password : SaltedHash → String → Except SaltedHashError Unit)
    (b64decode : String → Option (List Nat))
    (utf8decode : List Nat → Option String)
    (auth_header : Option String) : Except Nat Account :=
  match auth_header with
  | none => .error UNAUTHORIZED
  | some header_str =>
      match AuthHeader.parse b64decode utf8decode header_str with
      | .error _ => .error UNAUTHORIZED
      | .ok header =>
          match authenticate parse_uuid fetch_account verify_password
              header.username header.password with
          | .error _ => .error UNAUTHORIZED
          | .ok account => .ok account

/-- C9: every failure of the auth middleware yields the same bare `401`
response: a missing header fails with `401`, any failing request fails
with exactly `401`, and a request naming a non-existent account (the
store `fetch_account` returns no account) is answered identically to the
same request against a store where the account exists but the password
fails hash verification. -/
theorem require_auth_uniform_401
    (parse_uuid : String → Option Uuid)
    (fetch_account fetch_account2 : Uuid → Except AccountDatabaseError (Option Account))
    (verify_password : SaltedHash → String → Except SaltedHashError Unit)
    (b64decode : String → Option (List Nat))
    (utf8decode : List Nat → Option String)
    (header : Option String) (s : String) (h : AuthHeader)
    (uid : Uuid) (acct : Account) :
    (header = none →
      require_auth parse_uuid fetch_account verify_password b64decode utf8decode
        header = .error UNAUTHORIZED) ∧
    (∀ c, require_auth parse_uuid fetch_account verify_password b64decode utf8decode
        header = .error c → c = UNAUTHORIZED) ∧
    (header = some s →
      AuthHeader.parse b64decode utf8decode s = .ok h →
      parse_uuid h.username = some uid →
      fetch_account uid = .ok none →
      fetch_account2 uid = .ok (some acct) →
      verify_password acct.auth_password_hash h.password = .error .InvalidPassword →
      require_auth parse_uuid fetch_account verify_password b64decode utf8decode
        header = .error UNAUTHORIZED ∧
      require_auth parse_uuid fetch_account2 verify_password b64decode utf8decode
        header =
        require_auth parse_uuid fetch_account verify_password b64decode utf8decode
          header) := by
  refine ⟨?_, ?_, ?_⟩
  · intro hh
    subst hh
    rfl
  · intro c hc
    unfold require_auth at hc
    split at hc
    · injection hc with hc
      exact hc.symm
    · split at hc
      · injection hc with hc
        exact hc.symm
      · split at hc
        · injection hc with hc
          exact hc.symm
        · exact Except.noConfusion hc
  · intro hh hparse hpuid hfetch hfetch2 hverify
    subst hh
    have e1 : require_auth parse_uuid fetch_account verify_password b64decode
        utf8decode (some s) = .error UNAUTHORIZED := by
      simp only [require_auth, hparse, authenticate, hpuid, hfetch]
    have e2 : require_auth parse_uuid fetch_account2 verify_password b64decode
        utf8decode (some s) = .error UNAUTHORIZED := by
      simp only [require_auth, hparse, authenticate, hpuid, hfetch2, hverify,
        AuthError.ofSaltedHash]
    exact ⟨e1, e2.trans e1.symm⟩

def headerW : String := "Basic QQ=="

def userW : String := "7"

def pwW : String := "pw"

def decodedW : String := "7:pw"

def hW : AuthHeader := ⟨userW, pwW⟩

def b64W : String → Option (List Nat) := fun _ => some [55]

def utf8W : List Nat → Option String := fun _ => some decodedW

def parseUuidW : String → Option Uuid := fun s => if s = userW then some 7 else none

def hashW : SaltedHash := decodedW

def acctW : Account := ⟨7, hashW, none, none⟩

def fetchNoneW : Uuid → Except AccountDatabaseError (Option Account) :=
  fun _ => .ok none

def fetchSomeW : Uuid → Except AccountDatabaseError (Option Account) :=
  fun _ => .ok (some acctW)

def verifyPwW : SaltedHash → String → Except SaltedHashError Unit :=
  fun _ _ => .error .InvalidPassword

theorem require_auth_uniform_401_witness :
    require_auth parseUuidW fetchNoneW verifyPwW b64W utf8W (some headerW) =
      .error UNAUTHORIZED ∧
    require_auth parseUuidW fetchSomeW verifyPwW b64W utf8W (some headerW) =
      require_auth parseUuidW fetchNoneW verifyPwW b64W utf8W (some headerW) :=
  (require_auth_uniform_401 parseUuidW fetchNoneW fetchSomeW verifyPwW b64W utf8W
    (some headerW) headerW hW 7 acctW).2.2 rfl rfl rfl rfl rfl rfl

end Prism
